import Mathlib

/-!
Verification of the Pig dice-game server's session state machine and match
directory, shallowly embedded from the Go sources (`game` package, `models`
package, and `server/match.go`).  Randomness is modelled by passing the
pseudo-random draw as an explicit argument, and wall-clock time by passing
the current instant as an explicit `Nat` argument.
-/

/-- A player, mirroring `models.Player` (`ID`, `Name`, `Score`, `IsActive`). -/
structure Player where
  id : String
  name : String
  score : Int
  isActive : Bool
deriving Repr, DecidableEq

/-- The typed errors of the `game` package (`ErrGameNotStarted`, `ErrGameOver`,
`ErrNotPlayerTurn`, `ErrInvalidPlayer`, `ErrGameFull`, `ErrNotEnoughPlayers`,
and the ad hoc "player already in game" error). -/
inductive GameErr where
  | gameNotStarted
  | gameOver
  | notPlayerTurn
  | invalidPlayer
  | gameFull
  | notEnoughPlayers
  | playerAlreadyInGame
deriving Repr, DecidableEq

/-- The session state, mirroring `models.GameState`.  The Go `Winner *Player`
pointer is represented as the index of the winning player in the append-only
`players` list (pointers into that list are stable because players are never
removed or reordered). -/
structure GameState where
  players : List Player
  currentPlayer : Nat
  turnScore : Int
  lastRoll : Int
  winningScore : Int
  winner : Option Nat
  isGameOver : Bool
  createdAt : Nat
  lastActivityAt : Nat
deriving Repr, DecidableEq

/-- Placeholder player returned by out-of-range indexing (in Go an
out-of-range index would panic; all reachable states index in range). -/
def defaultPlayer : Player := ⟨"", "", 0, false⟩

/-- Indexing into the player list, `g.state.Players[i]`. -/
def getPlayer (ps : List Player) (i : Nat) : Player := ps.getD i defaultPlayer

/-- The number of active players, as counted by the loops in `RemovePlayer`
and `GetActivePlayerCount`. -/
def activeCount (ps : List Player) : Nat := ps.countP (fun p => p.isActive)

/-- `models.NewGameState`. -/
def NewGameState (winningScore : Int) (now : Nat) : GameState :=
  { players := []
    currentPlayer := 0
    turnScore := 0
    lastRoll := 0
    winningScore := winningScore
    winner := none
    isGameOver := false
    createdAt := now
    lastActivityAt := now }

/-- `game.NewPigGame`: a non-positive winning score falls back to 100. -/
def NewPigGame (winningScore : Int) (now : Nat) : GameState :=
  if winningScore ≤ 0 then NewGameState 100 now else NewGameState winningScore now

/-- `PigGame.AddPlayer`: rejects when the game is over, full (4 players), or
the id is already present; otherwise appends the player. -/
def AddPlayer (g : GameState) (p : Player) (now : Nat) : Option GameErr × GameState :=
  if g.isGameOver then (some .gameOver, g)
  else if 4 ≤ g.players.length then (some .gameFull, g)
  else if g.players.any (fun q => q.id == p.id) then (some .playerAlreadyInGame, g)
  else (none, { g with players := g.players ++ [p], lastActivityAt := now })

/-- `PigGame.CanStart`: at least two players. -/
def CanStart (g : GameState) : Bool := decide (2 ≤ g.players.length)

/-- `PigGame.Start`: fails with `ErrNotEnoughPlayers` below two players, then
with `ErrGameOver` on an over session; otherwise only refreshes the
last-activity timestamp (the game is implicitly started). -/
def Start (g : GameState) (now : Nat) : Option GameErr × GameState :=
  if g.players.length < 2 then (some .notEnoughPlayers, g)
  else if g.isGameOver then (some .gameOver, g)
  else (none, { g with lastActivityAt := now })

/-- The loop body of `PigGame.nextTurn`, with the remaining iteration count
made explicit as structural fuel (the Go loop runs `i` from `0` while
`i < len(players)`; `fuel` is `len(players) - i`).  Returns the final
`CurrentPlayer` and whether the wrap-around forced `IsGameOver = true`. -/
def nextTurnScanF (ps : List Player) (startIdx : Nat) : Nat → Nat → Nat → Nat × Bool
  | 0, cur, _ => (cur, false)
  | fuel + 1, cur, i =>
    if i < ps.length then
      let cur1 := (cur + 1) % ps.length
      if (getPlayer ps cur1).isActive then (cur1, false)
      else if cur1 = startIdx ∧ i = ps.length - 1 then (cur1, true)
      else nextTurnScanF ps startIdx fuel cur1 (i + 1)
    else (cur, false)

/-- The scan of `PigGame.nextTurn` starting at the current index. -/
def nextTurnScan (ps : List Player) (startIdx cur : Nat) : Nat × Bool :=
  nextTurnScanF ps startIdx ps.length cur 0

/-- `PigGame.nextTurn`: scan forward cyclically for the next active player;
if the scan wraps without finding one, force the game over (and skip the
`LastRoll` reset, which only happens on a successful advance). -/
def nextTurn (g : GameState) : GameState :=
  if g.players.length = 0 then g
  else
    match nextTurnScan g.players g.currentPlayer g.currentPlayer with
    | (cur, true) => { g with currentPlayer := cur, isGameOver := true }
    | (cur, false) => { g with currentPlayer := cur, lastRoll := 0 }

/-- `PigGame.RemovePlayer`: find the player by id (else `ErrInvalidPlayer`),
mark it inactive, end the game if at most one active player remains among
more than one joined (first remaining active player becomes winner), and
advance the turn if the departing player held it. -/
def RemovePlayer (g : GameState) (playerID : String) (now : Nat) :
    Option GameErr × GameState :=
  match g.players.findIdx? (fun p => p.id == playerID) with
  | none => (some .invalidPlayer, g)
  | some i =>
    let ps1 := g.players.set i { getPlayer g.players i with isActive := false }
    let g1 := { g with players := ps1 }
    let g2 :=
      if activeCount ps1 ≤ 1 ∧ 1 < g.players.length then
        { g1 with
            isGameOver := true
            winner :=
              match ps1.findIdx? (fun p => p.isActive) with
              | some j => some j
              | none => g1.winner }
      else g1
    let g3 := if i = g.currentPlayer then nextTurn g2 else g2
    (none, { g3 with lastActivityAt := now })

/-- The die value produced by `g.rng.Intn(6) + 1`, with the pseudo-random
draw `r` made explicit. -/
def rollValue (r : Nat) : Int := Int.ofNat (r % 6) + 1

/-- `PigGame.Roll`: after the game-over / not-started / turn / activity
checks, record the roll; a 1 forfeits the turn accumulator and advances the
turn, anything else adds to the accumulator. -/
def Roll (g : GameState) (playerID : String) (r : Nat) (now : Nat) :
    Option GameErr × Int × GameState :=
  if g.isGameOver then (some .gameOver, 0, g)
  else if g.players.length < 2 then (some .gameNotStarted, 0, g)
  else
    let cp := getPlayer g.players g.currentPlayer
    if cp.id = playerID then
      if cp.isActive then
        let roll := rollValue r
        let g1 := { g with lastRoll := roll, lastActivityAt := now }
        if roll = 1 then (none, roll, nextTurn { g1 with turnScore := 0 })
        else (none, roll, { g1 with turnScore := g1.turnScore + roll })
      else (some .invalidPlayer, 0, g)
    else (some .notPlayerTurn, 0, g)

/-- `PigGame.Hold`: after the same checks as `Roll`, bank the turn
accumulator into the current player's total; reaching the winning score ends
the game with that player as winner (no turn advance), otherwise the turn
advances. -/
def Hold (g : GameState) (playerID : String) (now : Nat) :
    Option GameErr × GameState :=
  if g.isGameOver then (some .gameOver, g)
  else if g.players.length < 2 then (some .gameNotStarted, g)
  else
    let cp := getPlayer g.players g.currentPlayer
    if cp.id = playerID then
      if cp.isActive then
        let newScore := cp.score + g.turnScore
        let ps1 := g.players.set g.currentPlayer { cp with score := newScore }
        let g1 := { g with players := ps1, lastActivityAt := now }
        if g.winningScore ≤ newScore then
          (none,
            { g1 with isGameOver := true, winner := some g.currentPlayer, turnScore := 0 })
        else (none, nextTurn { g1 with turnScore := 0 })
      else (some .invalidPlayer, g)
    else (some .notPlayerTurn, g)

/-- One mutating call on a session, as issued by the server: joins always go
through `models.NewPlayer` (score 0, active), the other operations take
arbitrary arguments. -/
inductive Step : GameState → GameState → Prop
  | add (s : GameState) (id name : String) (now : Nat) :
      Step s (AddPlayer s ⟨id, name, 0, true⟩ now).2
  | start (s : GameState) (now : Nat) : Step s (Start s now).2
  | roll (s : GameState) (pid : String) (r now : Nat) : Step s (Roll s pid r now).2.2
  | hold (s : GameState) (pid : String) (now : Nat) : Step s (Hold s pid now).2
  | remove (s : GameState) (pid : String) (now : Nat) : Step s (RemovePlayer s pid now).2

/-- Reachability of one session state from another by mutating calls. -/
def Reachable (s s' : GameState) : Prop := Relation.ReflTransGen Step s s'

/-- Cyclic scan for the first active player strictly after `cur`, with
explicit fuel; `specNextActive` below instantiates it to one full cycle.
This is the spec's turn-advance algorithm ("scan forward cyclically from the
current index; select the first participant with active=true"), stated
independently of the Go loop for refinement proofs. -/
def findActiveFuel (ps : List Player) : Nat → Nat → Option Nat
  | 0, _ => none
  | fuel + 1, cur =>
    let cur1 := (cur + 1) % ps.length
    if (getPlayer ps cur1).isActive then some cur1 else findActiveFuel ps fuel cur1

/-- The first active player found by one full cyclic scan after `start`. -/
def specNextActive (ps : List Player) (start : Nat) : Option Nat :=
  findActiveFuel ps ps.length start

/-- The player list after `RemovePlayer` marks index `i` departed
(`player.IsActive = false`). -/
def markDeparted (g : GameState) (i : Nat) : List Player :=
  g.players.set i { getPlayer g.players i with isActive := false }

/-- The session state after `RemovePlayer`'s end-of-game check for the
departure at index `i` (still before the possible turn advance). -/
def removeStage (g : GameState) (i : Nat) : GameState :=
  if activeCount (markDeparted g i) ≤ 1 ∧ 1 < g.players.length then
    { g with
        players := markDeparted g i
        isGameOver := true
        winner :=
          match (markDeparted g i).findIdx? (fun p => p.isActive) with
          | some j => some j
          | none => g.winner }
  else { g with players := markDeparted g i }

/-- The state invariant maintained by every session operation: the winner is
only ever set on an over session; an over session has a winner unless at
most one participant ever joined; a live session with at least two (resp.
one) participants has at least two (resp. one) active ones; and the
current-turn index stays in range. -/
def SessionInv (s : GameState) : Prop :=
  (s.winner.isSome = true → s.isGameOver = true) ∧
  (s.isGameOver = true → s.winner.isSome = true ∨ s.players.length ≤ 1) ∧
  (s.isGameOver = false → s.players.length ≤ 1 ∨ 2 ≤ activeCount s.players) ∧
  (s.isGameOver = false → 1 ≤ s.players.length → 1 ≤ activeCount s.players) ∧
  (s.players.length = 0 → s.currentPlayer = 0) ∧
  (1 ≤ s.players.length → s.currentPlayer < s.players.length)

/-! ### The match directory and actor (server/match.go) -/

/-- A connected player, mirroring `server.PlayerConnection`; the `tag`
stands in for the identity of the underlying websocket/send channel so that
distinct connections with the same player id can be told apart. -/
structure PlayerConnection where
  playerID : String
  playerName : String
  tag : Nat
deriving Repr, DecidableEq

/-- Where an outbound message is sent: privately to one connection's `Send`
channel, or to the match's `Broadcast` channel. -/
inductive MsgTarget where
  | toConn (tag : Nat)
  | broadcast
deriving Repr, DecidableEq

/-- An outbound message, reduced to its routing and its `Type` field
(`"joined"`, `"game_update"`, `"game_start"`, `"error"`, ...). -/
structure Msg where
  target : MsgTarget
  mtype : String
deriving Repr, DecidableEq

/-- A match session, mirroring `server.Match` (channels elided; the
connection map is an association list keyed by player id). -/
structure SMatch where
  id : String
  game : GameState
  players : List (String × PlayerConnection)
  minPlayers : Nat
  maxPlayers : Nat
  isStarted : Bool
  createdAt : Nat
  lastActivityAt : Nat
deriving Repr, DecidableEq

/-- `server.NewMatch`. -/
def NewMatch (gameID : String) (winningScore : Int) (now : Nat) : SMatch :=
  { id := gameID
    game := NewPigGame winningScore now
    players := []
    minPlayers := 2
    maxPlayers := 4
    isStarted := false
    createdAt := now
    lastActivityAt := now }

/-- The match directory, mirroring `server.MatchManager` (`matches` map and
the `waitingRoom` pointer). -/
structure MatchManager where
  matchMap : List (String × SMatch)
  waitingRoom : Option SMatch
deriving Repr, DecidableEq

/-- `server.MatchManager.FindOrCreateMatch`: reuse the waiting room when it
exists, has not started, and has spare connection capacity; otherwise create
a fresh match (its uuid supplied here as `freshID`), register it, and make
it the new waiting room. -/
def FindOrCreateMatch (mm : MatchManager) (winningScore : Int) (freshID : String)
    (now : Nat) : SMatch × MatchManager :=
  match mm.waitingRoom with
  | some wr =>
    if wr.isStarted = false ∧ wr.players.length < wr.maxPlayers then (wr, mm)
    else
      let m := NewMatch freshID winningScore now
      (m, { matchMap := mm.matchMap ++ [(freshID, m)], waitingRoom := some m })
  | none =>
    let m := NewMatch freshID winningScore now
    (m, { matchMap := mm.matchMap ++ [(freshID, m)], waitingRoom := some m })

/-- Go map assignment `m.Players[k] = v` on the association-list model. -/
def mapSet (ps : List (String × PlayerConnection)) (k : String)
    (v : PlayerConnection) : List (String × PlayerConnection) :=
  if ps.any (fun kv => kv.1 == k) then
    ps.map (fun kv => if kv.1 == k then (k, v) else kv)
  else ps ++ [(k, v)]

/-- Go map deletion `delete(m.Players, k)` on the association-list model. -/
def mapDel (ps : List (String × PlayerConnection)) (k : String) :
    List (String × PlayerConnection) :=
  ps.filter (fun kv => !(kv.1 == k))

/-- The `models.NewPlayer` call in `handleRegister`, with the id overridden
by the connection's player id. -/
def joinPlayer (conn : PlayerConnection) : Player :=
  { id := conn.playerID, name := conn.playerName, score := 0, isActive := true }

/-- `Match.handleRegister`: record the connection and refresh the activity
timestamp, then try `AddPlayer`; on failure the connection entry is deleted
again and the event is dropped (only a server-side log, no message is sent);
on success a private "joined" message and a "game_update" broadcast go out,
and the game is auto-started once two players are present. -/
def handleRegister (m : SMatch) (conn : PlayerConnection) (now : Nat) :
    SMatch × List Msg :=
  let players1 := mapSet m.players conn.playerID conn
  let m1 := { m with players := players1, lastActivityAt := now }
  match AddPlayer m1.game (joinPlayer conn) now with
  | (some _, _) => ({ m1 with players := mapDel players1 conn.playerID }, [])
  | (none, game1) =>
    let m2 := { m1 with game := game1 }
    let msgs := [Msg.mk (MsgTarget.toConn conn.tag) "joined",
                 Msg.mk MsgTarget.broadcast "game_update"]
    if CanStart game1 ∧ m2.isStarted = false then
      match Start game1 now with
      | (some _, _) => ({ m2 with isStarted := true }, msgs)
      | (none, game2) =>
        ({ m2 with isStarted := true, game := game2 },
          msgs ++ [Msg.mk MsgTarget.broadcast "game_start"])
    else (m2, msgs)

/-! ### Concrete states used by witnesses and counterexamples -/

/-- A first player as created by `models.NewPlayer`. -/
def playerA : Player := ⟨"a", "Alice", 0, true⟩

/-- A second player as created by `models.NewPlayer`. -/
def playerB : Player := ⟨"b", "Bob", 0, true⟩

/-- A fresh session with the default target of 100. -/
def game0 : GameState := NewPigGame 100 0

/-- The fresh session after one join. -/
def game1A : GameState := (AddPlayer game0 playerA 0).2

/-- The fresh session after two joins. -/
def game2AB : GameState := (AddPlayer game1A playerB 0).2

/-- The session where the only participant joined and departed. -/
def gameSoloOver : GameState := (RemovePlayer game1A "a" 1).2

/-- The two-player session after Alice departs (over, Bob wins). -/
def gameOver2 : GameState := (RemovePlayer game2AB "a" 1).2

/-- An over session with a recorded winner in which both participants are
still active (as left by a winning `Hold`). -/
def c10g : GameState :=
  { players := [⟨"a", "Alice", 100, true⟩, ⟨"b", "Bob", 10, true⟩]
    currentPlayer := 0
    turnScore := 0
    lastRoll := 5
    winningScore := 100
    winner := some 0
    isGameOver := true
    createdAt := 0
    lastActivityAt := 0 }

/-- The connection already registered for player id "a". -/
def c9conn0 : PlayerConnection := ⟨"a", "Alice", 0⟩

/-- A second connection arriving with the same player id "a". -/
def c9conn1 : PlayerConnection := ⟨"a", "Alfred", 1⟩

/-- A match with one registered connection and its player in the game. -/
def c9match : SMatch :=
  { id := "m"
    game := game1A
    players := [("a", c9conn0)]
    minPlayers := 2
    maxPlayers := 4
    isStarted := false
    createdAt := 0
    lastActivityAt := 0 }

/-- An empty match directory. -/
def c8mm : MatchManager := { matchMap := [], waitingRoom := none }

/-! ### Basic facts about indexing and counting -/

lemma getPlayer_default_of_le (ps : List Player) (i : Nat) (h : ps.length ≤ i) :
    getPlayer ps i = defaultPlayer := by
  simp [getPlayer, List.getD_eq_getElem?_getD, List.getElem?_eq_none h]

lemma lt_of_active (ps : List Player) (i : Nat)
    (h : (getPlayer ps i).isActive = true) : i < ps.length := by
  by_contra hlt
  rw [getPlayer_default_of_le ps i (Nat.le_of_not_lt hlt)] at h
  simp [defaultPlayer] at h

lemma getPlayer_eq_getElem (ps : List Player) (i : Nat) (h : i < ps.length) :
    getPlayer ps i = ps[i] := List.getD_eq_getElem ps defaultPlayer h

lemma getPlayer_set_self (ps : List Player) (i : Nat) (x : Player) (h : i < ps.length) :
    getPlayer (ps.set i x) i = x := by
  simp [getPlayer, List.getD_eq_getElem?_getD, List.getElem?_set_self h]

lemma getPlayer_set_ne (ps : List Player) (i j : Nat) (x : Player) (h : i ≠ j) :
    getPlayer (ps.set i x) j = getPlayer ps j := by
  simp [getPlayer, List.getD_eq_getElem?_getD, List.getElem?_set_ne h]

lemma all_inactive (ps : List Player) (h : activeCount ps = 0) (k : Nat) :
    (getPlayer ps k).isActive = false := by
  by_cases hk : k < ps.length
  · rw [getPlayer_eq_getElem ps k hk]
    have := List.countP_eq_zero.mp h ps[k] (List.getElem_mem hk)
    simpa using this
  · rw [getPlayer_default_of_le ps k (Nat.le_of_not_lt hk)]
    rfl

lemma exists_active_of_countP (ps : List Player) (h : 1 ≤ activeCount ps) :
    ∃ j, j < ps.length ∧ (getPlayer ps j).isActive = true := by
  obtain ⟨a, ha, hact⟩ := List.countP_pos.mp h
  obtain ⟨j, hj, rfl⟩ := List.mem_iff_getElem.mp ha
  exact ⟨j, hj, by rw [getPlayer_eq_getElem ps j hj]; exact hact⟩

lemma findIdx_active_of_countP (ps : List Player) (h : 1 ≤ activeCount ps) :
    ∃ j, ps.findIdx? (fun p => p.isActive) = some j ∧ j < ps.length ∧
      (getPlayer ps j).isActive = true := by
  obtain ⟨j0, hj0, hact0⟩ := exists_active_of_countP ps h
  have hany : ps.any (fun p => p.isActive) = true := by
    refine List.any_eq_true.mpr ⟨ps[j0], List.getElem_mem hj0, ?_⟩
    rw [getPlayer_eq_getElem ps j0 hj0] at hact0
    exact hact0
  have hsome : (ps.findIdx? (fun p => p.isActive)).isSome = true := by
    rw [List.findIdx?_isSome]; exact hany
  obtain ⟨j, hj⟩ := Option.isSome_iff_exists.mp hsome
  obtain ⟨hlt, hactj, _⟩ := List.findIdx?_eq_some_iff_getElem.mp hj
  exact ⟨j, hj, hlt, by rw [getPlayer_eq_getElem ps j hlt]; exact hactj⟩

lemma findIdx_active_none (ps : List Player) (h : activeCount ps = 0) :
    ps.findIdx? (fun p => p.isActive) = none := by
  refine List.findIdx?_eq_none_iff.mpr (fun x hx => ?_)
  simpa using List.countP_eq_zero.mp h x hx

lemma activeCount_set (ps : List Player) (i : Nat) (x : Player) (h : i < ps.length) :
    activeCount (ps.set i x) =
      (activeCount ps - if (getPlayer ps i).isActive then 1 else 0) +
        (if x.isActive then 1 else 0) := by
  rw [getPlayer_eq_getElem ps i h]
  simpa [activeCount] using List.countP_set (fun p => p.isActive) ps i x h

lemma activeCount_pos_of_active (ps : List Player) (i : Nat)
    (h : (getPlayer ps i).isActive = true) : 1 ≤ activeCount ps := by
  have hi := lt_of_active ps i h
  rw [getPlayer_eq_getElem ps i hi] at h
  exact List.countP_pos.mpr ⟨ps[i], List.getElem_mem hi, h⟩

lemma activeCount_set_same (ps : List Player) (i : Nat) (x : Player)
    (h : i < ps.length) (hsame : x.isActive = (getPlayer ps i).isActive) :
    activeCount (ps.set i x) = activeCount ps := by
  have hpos := activeCount_pos_of_active ps i
  rw [activeCount_set _ _ _ h, hsame]
  cases hb : (getPlayer ps i).isActive
  · rw [if_neg (by decide : ¬(false = true))]
    omega
  · rw [if_pos (rfl : (true : Bool) = true)]
    have := hpos hb
    omega

lemma exists_offset (n s j : Nat) (hn : 0 < n) (hj : j < n) :
    ∃ m, m < n ∧ (s + m) % n = j := by
  refine ⟨(n + j - s % n) % n, Nat.mod_lt _ hn, ?_⟩
  have ht : s % n < n := Nat.mod_lt _ hn
  have hts : s % n ≤ s := Nat.mod_le s n
  have hdm : n * (s / n) + s % n = s := Nat.div_add_mod s n
  have h1 : (s + (n + j - s % n) % n) % n = (s + (n + j - s % n)) % n := by
    conv_lhs => rw [Nat.add_mod]
    conv_rhs => rw [Nat.add_mod]
    rw [Nat.mod_mod_of_dvd _ (dvd_refl n)]
  rw [h1]
  have h2 : s + (n + j - s % n) = n * (s / n) + (n + j) := by omega
  rw [h2, Nat.mul_add_mod]
  have h3 : n + j = n * 1 + j := by omega
  rw [h3, Nat.mul_add_mod, Nat.mod_eq_of_lt hj]

/-! ### The turn-advance scan -/

lemma nextTurnScanF_succ (ps : List Player) (startIdx fuel cur i : Nat) :
    nextTurnScanF ps startIdx (fuel + 1) cur i =
      if i < ps.length then
        if (getPlayer ps ((cur + 1) % ps.length)).isActive then
          ((cur + 1) % ps.length, false)
        else if (cur + 1) % ps.length = startIdx ∧ i = ps.length - 1 then
          ((cur + 1) % ps.length, true)
        else nextTurnScanF ps startIdx fuel ((cur + 1) % ps.length) (i + 1)
      else (cur, false) := rfl

lemma findActiveFuel_succ (ps : List Player) (fuel cur : Nat) :
    findActiveFuel ps (fuel + 1) cur =
      if (getPlayer ps ((cur + 1) % ps.length)).isActive then
        some ((cur + 1) % ps.length)
      else findActiveFuel ps fuel ((cur + 1) % ps.length) := rfl

lemma scanF_fst_lt (ps : List Player) (start : Nat) (hlen : 0 < ps.length) :
    ∀ fuel cur i, cur < ps.length → (nextTurnScanF ps start fuel cur i).1 < ps.length := by
  intro fuel
  induction fuel with
  | zero => intro cur i hcur; simpa [nextTurnScanF] using hcur
  | succ fuel ih =>
    intro cur i hcur
    rw [nextTurnScanF_succ]
    by_cases hi : i < ps.length
    · rw [if_pos hi]
      by_cases hA : (getPlayer ps ((cur + 1) % ps.length)).isActive = true
      · rw [if_pos hA]; exact Nat.mod_lt _ hlen
      · rw [if_neg hA]
        by_cases hc : (cur + 1) % ps.length = start ∧ i = ps.length - 1
        · rw [if_pos hc]; exact Nat.mod_lt _ hlen
        · rw [if_neg hc]; exact ih _ _ (Nat.mod_lt _ hlen)
    · rw [if_neg hi]; exact hcur

lemma scanF_finds (ps : List Player) (start : Nat) :
    ∀ fuel i cur, fuel = ps.length - i → i < ps.length →
    cur = (start + i) % ps.length →
    (∃ m, m < ps.length - i ∧
      (getPlayer ps ((start + 1 + i + m) % ps.length)).isActive = true) →
    ∃ k, findActiveFuel ps fuel cur = some k ∧
      nextTurnScanF ps start fuel cur i = (k, false) ∧
      (getPlayer ps k).isActive = true ∧ k < ps.length := by
  intro fuel
  induction fuel with
  | zero => intro i cur hfuel hi _ _; omega
  | succ fuel ih =>
    intro i cur hfuel hi hcur hex
    have hlen : 0 < ps.length := Nat.lt_of_le_of_lt (Nat.zero_le i) hi
    have hcur1 : (cur + 1) % ps.length = (start + i + 1) % ps.length := by
      rw [hcur, Nat.mod_add_mod]
    rw [nextTurnScanF_succ, if_pos hi, findActiveFuel_succ]
    by_cases hA : (getPlayer ps ((cur + 1) % ps.length)).isActive = true
    · rw [if_pos hA, if_pos hA]
      exact ⟨(cur + 1) % ps.length, rfl, rfl, hA, Nat.mod_lt _ hlen⟩
    · obtain ⟨m, hmlt, hmact⟩ := hex
      have hm0 : m ≠ 0 := by
        intro h0
        apply hA
        rw [hcur1]
        have harr : start + 1 + i + m = start + i + 1 := by omega
        rwa [harr] at hmact
      have hine : i ≠ ps.length - 1 := by
        intro h1
        have : ps.length - i = 1 := by omega
        omega
      have hi1 : i + 1 < ps.length := by omega
      have hcur2 : (cur + 1) % ps.length = (start + (i + 1)) % ps.length := by
        rw [hcur1]; rfl
      have hrec := ih (i + 1) ((cur + 1) % ps.length) (by omega) hi1 hcur2
        ⟨m - 1, by omega, by
          have harr : start + 1 + (i + 1) + (m - 1) = start + 1 + i + m := by omega
          rwa [harr]⟩
      obtain ⟨k, hfind, hscan, hact, hk⟩ := hrec
      have hcond : ¬((cur + 1) % ps.length = start ∧ i = ps.length - 1) := by
        intro hc; exact hine hc.2
      rw [if_neg hA, if_neg hA, if_neg hcond]
      exact ⟨k, hfind, hscan, hact, hk⟩

lemma scanF_forced (ps : List Player) (start : Nat) (hstart : start < ps.length)
    (hno : activeCount ps = 0) :
    ∀ fuel i cur, fuel = ps.length - i → i < ps.length →
    cur = (start + i) % ps.length →
    nextTurnScanF ps start fuel cur i = (start, true) := by
  intro fuel
  induction fuel with
  | zero => intro i cur hfuel hi _; omega
  | succ fuel ih =>
    intro i cur hfuel hi hcur
    have hlen : 0 < ps.length := Nat.lt_of_le_of_lt (Nat.zero_le i) hi
    have hA : ¬(getPlayer ps ((cur + 1) % ps.length)).isActive = true := by
      rw [all_inactive ps hno _]; simp
    have hcur1 : (cur + 1) % ps.length = (start + i + 1) % ps.length := by
      rw [hcur, Nat.mod_add_mod]
    rw [nextTurnScanF_succ, if_pos hi, if_neg hA]
    by_cases hlast : i = ps.length - 1
    · have hstep : (cur + 1) % ps.length = start := by
        rw [hcur1]
        have harr : start + i + 1 = start + ps.length := by omega
        rw [harr, Nat.add_mod_right, Nat.mod_eq_of_lt hstart]
      rw [if_pos ⟨hstep, hlast⟩, hstep]
    · have hi1 : i + 1 < ps.length := by omega
      have hcur2 : (cur + 1) % ps.length = (start + (i + 1)) % ps.length := by
        rw [hcur1]; rfl
      have hcond : ¬((cur + 1) % ps.length = start ∧ i = ps.length - 1) := by
        intro hc; exact hlast hc.2
      rw [if_neg hcond]
      exact ih (i + 1) ((cur + 1) % ps.length) (by omega) hi1 hcur2

lemma nextTurnScan_finds (ps : List Player) (start : Nat) (hstart : start < ps.length)
    (hex : ∃ j, j < ps.length ∧ (getPlayer ps j).isActive = true) :
    ∃ k, specNextActive ps start = some k ∧ nextTurnScan ps start start = (k, false) ∧
      (getPlayer ps k).isActive = true ∧ k < ps.length := by
  have hlen : 0 < ps.length := Nat.lt_of_le_of_lt (Nat.zero_le start) hstart
  obtain ⟨j, hj, hact⟩ := hex
  obtain ⟨m, hm, hmeq⟩ := exists_offset ps.length (start + 1) j hlen hj
  have hstart0 : start = (start + 0) % ps.length := by
    simp [Nat.mod_eq_of_lt hstart]
  have hres := scanF_finds ps start ps.length 0 start (by omega) hlen hstart0
    ⟨m, by omega, by
      have harr : start + 1 + 0 + m = start + 1 + m := by omega
      rw [harr, hmeq]; exact hact⟩
  simpa [specNextActive, nextTurnScan] using hres

lemma nextTurnScan_forced (ps : List Player) (start : Nat) (hstart : start < ps.length)
    (hno : activeCount ps = 0) :
    nextTurnScan ps start start = (start, true) := by
  have hlen : 0 < ps.length := Nat.lt_of_le_of_lt (Nat.zero_le start) hstart
  have hstart0 : start = (start + 0) % ps.length := by
    simp [Nat.mod_eq_of_lt hstart]
  simpa [nextTurnScan] using
    scanF_forced ps start hstart hno ps.length 0 start (by omega) hlen hstart0

/-! ### Facts about nextTurn -/

lemma nextTurn_advances (g : GameState) (hstart : g.currentPlayer < g.players.length)
    (hex : ∃ j, j < g.players.length ∧ (getPlayer g.players j).isActive = true) :
    ∃ k, specNextActive g.players g.currentPlayer = some k ∧
      nextTurn g = { g with currentPlayer := k, lastRoll := 0 } ∧
      (getPlayer g.players k).isActive = true ∧ k < g.players.length := by
  obtain ⟨k, hspec, hscan, hact, hk⟩ :=
    nextTurnScan_finds g.players g.currentPlayer hstart hex
  refine ⟨k, hspec, ?_, hact, hk⟩
  unfold nextTurn
  rw [if_neg (by omega : ¬g.players.length = 0), hscan]

lemma nextTurn_forcedOver (g : GameState) (hstart : g.currentPlayer < g.players.length)
    (hno : activeCount g.players = 0) :
    nextTurn g = { g with isGameOver := true } := by
  unfold nextTurn
  rw [if_neg (by omega : ¬g.players.length = 0),
    nextTurnScan_forced g.players g.currentPlayer hstart hno]

lemma nextTurn_fields (g : GameState) :
    (nextTurn g).players = g.players ∧ (nextTurn g).winner = g.winner ∧
    (nextTurn g).turnScore = g.turnScore ∧ (nextTurn g).winningScore = g.winningScore ∧
    (nextTurn g).lastActivityAt = g.lastActivityAt ∧
    (nextTurn g).createdAt = g.createdAt := by
  unfold nextTurn
  split
  · exact ⟨rfl, rfl, rfl, rfl, rfl, rfl⟩
  · split <;> exact ⟨rfl, rfl, rfl, rfl, rfl, rfl⟩

lemma nextTurn_over_mono (g : GameState) (h : g.isGameOver = true) :
    (nextTurn g).isGameOver = true := by
  unfold nextTurn
  split
  · exact h
  · split
    · rfl
    · exact h

lemma nextTurn_cur_lt (g : GameState) (h : g.currentPlayer < g.players.length) :
    (nextTurn g).currentPlayer < g.players.length := by
  have hlen : 0 < g.players.length := by omega
  have hlt := scanF_fst_lt g.players g.currentPlayer hlen g.players.length
    g.currentPlayer 0 h
  unfold nextTurn
  rw [if_neg (by omega : ¬g.players.length = 0)]
  rcases hsc : nextTurnScan g.players g.currentPlayer g.currentPlayer with ⟨c, b⟩
  have hc : c < g.players.length := by
    have hfst : (nextTurnScan g.players g.currentPlayer g.currentPlayer).1 <
        g.players.length := hlt
    rwa [hsc] at hfst
  cases b
  · exact hc
  · exact hc

/-! ### Success/failure shapes of each operation -/

lemma AddPlayer_cases (g : GameState) (p : Player) (now : Nat) :
    (AddPlayer g p now).2 = g ∨
    (g.isGameOver = false ∧
      (AddPlayer g p now).2 =
        { g with players := g.players ++ [p], lastActivityAt := now }) := by
  unfold AddPlayer
  by_cases h1 : g.isGameOver = true
  · left; simp [h1]
  · by_cases h2 : 4 ≤ g.players.length
    · left; simp [h1, h2]
    · by_cases h3 : g.players.any (fun q => q.id == p.id) = true
      · left; simp [h1, h2, h3]
      · right
        refine ⟨Bool.eq_false_iff.mpr (by simpa using h1), ?_⟩
        simp [h1, h2, h3]

lemma Start_cases (g : GameState) (now : Nat) :
    (Start g now).2 = g ∨ (Start g now).2 = { g with lastActivityAt := now } := by
  unfold Start
  by_cases h1 : g.players.length < 2
  · left; simp [h1]
  · by_cases h2 : g.isGameOver = true
    · left; simp [h1, h2]
    · right; simp [h1, h2]

lemma Roll_cases (g : GameState) (pid : String) (r now : Nat) :
    (Roll g pid r now).2.2 = g ∨
    (g.isGameOver = false ∧ 2 ≤ g.players.length ∧
      (getPlayer g.players g.currentPlayer).isActive = true ∧
      ((rollValue r = 1 ∧
        (Roll g pid r now).2.2 =
          nextTurn { g with lastRoll := rollValue r, lastActivityAt := now,
                            turnScore := 0 }) ∨
       (rollValue r ≠ 1 ∧
        (Roll g pid r now).2.2 =
          { g with lastRoll := rollValue r, lastActivityAt := now,
                   turnScore := g.turnScore + rollValue r }))) := by
  unfold Roll
  by_cases h1 : g.isGameOver = true
  · left; simp [h1]
  · by_cases h2 : g.players.length < 2
    · left; simp [h1, h2]
    · by_cases h3 : (getPlayer g.players g.currentPlayer).id = pid
      · by_cases h4 : (getPlayer g.players g.currentPlayer).isActive = true
        · right
          refine ⟨Bool.eq_false_iff.mpr (by simpa using h1), by omega, h4, ?_⟩
          by_cases h5 : rollValue r = 1
          · left; exact ⟨h5, by simp [h1, h2, h3, h4, h5]⟩
          · right; exact ⟨h5, by simp [h1, h2, h3, h4, h5]⟩
        · left; simp [h1, h2, h3, h4]
      · left; simp [h1, h2, h3]

lemma Hold_cases (g : GameState) (pid : String) (now : Nat) :
    (Hold g pid now).2 = g ∨
    (g.isGameOver = false ∧ 2 ≤ g.players.length ∧
      (getPlayer g.players g.currentPlayer).isActive = true ∧
      ((g.winningScore ≤ (getPlayer g.players g.currentPlayer).score + g.turnScore ∧
        (Hold g pid now).2 =
          { g with
              players := g.players.set g.currentPlayer
                { getPlayer g.players g.currentPlayer with
                    score := (getPlayer g.players g.currentPlayer).score + g.turnScore }
              lastActivityAt := now
              isGameOver := true
              winner := some g.currentPlayer
              turnScore := 0 }) ∨
       ((getPlayer g.players g.currentPlayer).score + g.turnScore < g.winningScore ∧
        (Hold g pid now).2 =
          nextTurn
            { g with
                players := g.players.set g.currentPlayer
                  { getPlayer g.players g.currentPlayer with
                      score := (getPlayer g.players g.currentPlayer).score + g.turnScore }
                lastActivityAt := now
                turnScore := 0 }))) := by
  unfold Hold
  by_cases h1 : g.isGameOver = true
  · left; simp [h1]
  · by_cases h2 : g.players.length < 2
    · left; simp [h1, h2]
    · by_cases h3 : (getPlayer g.players g.currentPlayer).id = pid
      · by_cases h4 : (getPlayer g.players g.currentPlayer).isActive = true
        · right
          refine ⟨Bool.eq_false_iff.mpr (by simpa using h1), by omega, h4, ?_⟩
          by_cases h5 : g.winningScore ≤
              (getPlayer g.players g.currentPlayer).score + g.turnScore
          · left; exact ⟨h5, by simp [h1, h2, h3, h4, h5]⟩
          · right; exact ⟨by omega, by simp [h1, h2, h3, h4, h5]⟩
        · left; simp [h1, h2, h3, h4]
      · left; simp [h1, h2, h3]

/-! ### Once over, always over -/

lemma Roll_gameOver (g : GameState) (pid : String) (r now : Nat)
    (h : g.isGameOver = true) : (Roll g pid r now).1 = some GameErr.gameOver := by
  unfold Roll; simp [h]

lemma Hold_gameOver (g : GameState) (pid : String) (now : Nat)
    (h : g.isGameOver = true) : (Hold g pid now).1 = some GameErr.gameOver := by
  unfold Hold; simp [h]

lemma AddPlayer_over_mono (g : GameState) (p : Player) (now : Nat)
    (h : g.isGameOver = true) : (AddPlayer g p now).2.isGameOver = true := by
  unfold AddPlayer; simp [h]

lemma Start_over_mono (g : GameState) (now : Nat)
    (h : g.isGameOver = true) : (Start g now).2.isGameOver = true := by
  unfold Start
  by_cases h1 : g.players.length < 2
  · simpa [h1] using h
  · simp [h1, h]

lemma Roll_over_mono (g : GameState) (pid : String) (r now : Nat)
    (h : g.isGameOver = true) : (Roll g pid r now).2.2.isGameOver = true := by
  unfold Roll; simp [h]

lemma Hold_over_mono (g : GameState) (pid : String) (now : Nat)
    (h : g.isGameOver = true) : (Hold g pid now).2.isGameOver = true := by
  unfold Hold; simp [h]

lemma RemovePlayer_eq_none (g : GameState) (pid : String) (now : Nat)
    (h : List.findIdx? (fun p => p.id == pid) g.players = none) :
    RemovePlayer g pid now = (some GameErr.invalidPlayer, g) := by
  unfold RemovePlayer
  rw [h]

lemma RemovePlayer_eq_some (g : GameState) (pid : String) (now : Nat) (i : Nat)
    (h : List.findIdx? (fun p => p.id == pid) g.players = some i) :
    RemovePlayer g pid now =
      (none,
        { (if i = g.currentPlayer then nextTurn (removeStage g i) else removeStage g i)
            with lastActivityAt := now }) := by
  unfold RemovePlayer removeStage markDeparted
  rw [h]

lemma removeStage_over_mono (g : GameState) (i : Nat) (h : g.isGameOver = true) :
    (removeStage g i).isGameOver = true := by
  unfold removeStage
  split
  · rfl
  · exact h

lemma RemovePlayer_over_mono (g : GameState) (pid : String) (now : Nat)
    (h : g.isGameOver = true) : (RemovePlayer g pid now).2.isGameOver = true := by
  rcases hidx : List.findIdx? (fun p => p.id == pid) g.players with _ | i
  · rw [RemovePlayer_eq_none g pid now hidx]
    exact h
  · rw [RemovePlayer_eq_some g pid now i hidx]
    show (if i = g.currentPlayer then nextTurn (removeStage g i)
      else removeStage g i).isGameOver = true
    by_cases hic : i = g.currentPlayer
    · rw [if_pos hic]
      exact nextTurn_over_mono _ (removeStage_over_mono g i h)
    · rw [if_neg hic]
      exact removeStage_over_mono g i h

lemma Step_over_mono (s s' : GameState) (hstep : Step s s')
    (h : s.isGameOver = true) : s'.isGameOver = true := by
  cases hstep with
  | add id name now => exact AddPlayer_over_mono _ _ _ h
  | start now => exact Start_over_mono _ _ h
  | roll pid r now => exact Roll_over_mono _ _ _ _ h
  | hold pid now => exact Hold_over_mono _ _ _ h
  | remove pid now => exact RemovePlayer_over_mono _ _ _ h

lemma Reachable_over_mono (s s' : GameState) (h : Reachable s s')
    (hover : s.isGameOver = true) : s'.isGameOver = true := by
  induction h with
  | refl => exact hover
  | tail _ hstep ih => exact Step_over_mono _ _ hstep ih

/-! ### Preservation of the session invariant -/

lemma SessionInv_start (s : GameState) (now : Nat) (hinv : SessionInv s) :
    SessionInv (Start s now).2 := by
  rcases Start_cases s now with h | h <;> rw [h]
  · exact hinv
  · obtain ⟨i1, i2, i3, i4, i5, i6⟩ := hinv
    exact ⟨i1, i2, i3, i4, i5, i6⟩

lemma SessionInv_add (s : GameState) (id name : String) (now : Nat)
    (hinv : SessionInv s) : SessionInv (AddPlayer s ⟨id, name, 0, true⟩ now).2 := by
  rcases AddPlayer_cases s ⟨id, name, 0, true⟩ now with h | ⟨hover, h⟩
  · rwa [h]
  · rw [h]
    obtain ⟨i1, i2, i3, i4, i5, i6⟩ := hinv
    have hac : activeCount (s.players ++ [⟨id, name, 0, true⟩]) =
        activeCount s.players + 1 := by
      simp [activeCount, List.countP_append]
    have hlen : (s.players ++ [(⟨id, name, 0, true⟩ : Player)]).length =
        s.players.length + 1 := by simp
    unfold SessionInv
    dsimp only
    rw [hac, hlen]
    refine ⟨i1, ?_, ?_, ?_, ?_, ?_⟩
    · intro hov
      rw [hover] at hov
      exact absurd hov (by decide)
    · intro _
      rcases Nat.eq_zero_or_pos s.players.length with h0 | h0
      · left; omega
      · right
        have := i4 hover h0
        omega
    · intro _ _
      omega
    · intro h0
      omega
    · intro _
      rcases Nat.eq_zero_or_pos s.players.length with h0 | h0
      · rw [i5 h0]; omega
      · have := i6 h0; omega

lemma SessionInv_roll (s : GameState) (pid : String) (r now : Nat)
    (hinv : SessionInv s) : SessionInv (Roll s pid r now).2.2 := by
  rcases Roll_cases s pid r now with h | ⟨hover, hlen, hact, ⟨_, h⟩ | ⟨_, h⟩⟩
  · rwa [h]
  · rw [h]
    obtain ⟨i1, i2, i3, i4, i5, i6⟩ := hinv
    have hcur : s.currentPlayer < s.players.length := lt_of_active _ _ hact
    obtain ⟨k, -, hnt, -, hk⟩ := nextTurn_advances
      { s with lastRoll := rollValue r, lastActivityAt := now, turnScore := 0 }
      hcur ⟨s.currentPlayer, hcur, hact⟩
    rw [hnt]
    unfold SessionInv
    dsimp only
    exact ⟨i1, i2, i3, i4, fun h0 => absurd h0 (by omega), fun _ => hk⟩
  · rw [h]
    obtain ⟨i1, i2, i3, i4, i5, i6⟩ := hinv
    exact ⟨i1, i2, i3, i4, i5, i6⟩

lemma SessionInv_hold (s : GameState) (pid : String) (now : Nat)
    (hinv : SessionInv s) : SessionInv (Hold s pid now).2 := by
  rcases Hold_cases s pid now with h | ⟨hover, hlen, hact, ⟨hwin, h⟩ | ⟨hlt, h⟩⟩
  · rwa [h]
  · rw [h]
    obtain ⟨i1, i2, i3, i4, i5, i6⟩ := hinv
    have hcur : s.currentPlayer < s.players.length := lt_of_active _ _ hact
    unfold SessionInv
    dsimp only
    rw [List.length_set]
    refine ⟨fun _ => rfl, fun _ => Or.inl rfl, ?_, ?_, ?_, ?_⟩
    · intro h0
      exact absurd h0 (by decide)
    · intro h0
      exact absurd h0 (by decide)
    · intro h0
      omega
    · intro _
      exact hcur
  · rw [h]
    obtain ⟨i1, i2, i3, i4, i5, i6⟩ := hinv
    have hcur : s.currentPlayer < s.players.length := lt_of_active _ _ hact
    have hpos := activeCount_pos_of_active _ _ hact
    have hact1 : (getPlayer
        (s.players.set s.currentPlayer
          { getPlayer s.players s.currentPlayer with
              score := (getPlayer s.players s.currentPlayer).score + s.turnScore })
        s.currentPlayer).isActive = true := by
      rw [getPlayer_set_self _ _ _ hcur]
      exact hact
    have hlens : (s.players.set s.currentPlayer
        { getPlayer s.players s.currentPlayer with
            score := (getPlayer s.players s.currentPlayer).score + s.turnScore }).length =
        s.players.length := List.length_set _ _ _
    have hacs : activeCount (s.players.set s.currentPlayer
        { getPlayer s.players s.currentPlayer with
            score := (getPlayer s.players s.currentPlayer).score + s.turnScore }) =
        activeCount s.players :=
      activeCount_set_same _ _ _ hcur rfl
    obtain ⟨k, -, hnt, -, hk⟩ := nextTurn_advances
      { s with
          players := s.players.set s.currentPlayer
            { getPlayer s.players s.currentPlayer with
                score := (getPlayer s.players s.currentPlayer).score + s.turnScore }
          lastActivityAt := now
          turnScore := 0 }
      (by dsimp only; rw [hlens]; exact hcur)
      ⟨s.currentPlayer, by dsimp only; rw [hlens]; exact hcur, hact1⟩
    rw [hnt]
    have hk2 : k < s.players.length := by rw [← hlens]; exact hk
    unfold SessionInv
    dsimp only
    rw [hlens, hacs]
    refine ⟨i1, i2, i3, i4, ?_, fun _ => hk2⟩
    · intro h0
      omega

lemma SessionInv_remove (s : GameState) (pid : String) (now : Nat)
    (hinv : SessionInv s) : SessionInv (RemovePlayer s pid now).2 := by
  obtain ⟨i1, i2, i3, i4, i5, i6⟩ := hinv
  rcases hidx : List.findIdx? (fun p => p.id == pid) s.players with _ | i
  · rw [RemovePlayer_eq_none s pid now hidx]
    exact ⟨i1, i2, i3, i4, i5, i6⟩
  · rw [RemovePlayer_eq_some s pid now i hidx]
    obtain ⟨hilt, -, -⟩ := List.findIdx?_eq_some_iff_getElem.mp hidx
    have hmlen : (markDeparted s i).length = s.players.length := List.length_set _ _ _
    have hmi : getPlayer (markDeparted s i) i =
        { getPlayer s.players i with isActive := false } :=
      getPlayer_set_self _ _ _ hilt
    have ht1 : (if (getPlayer s.players i).isActive = true then 1 else 0) ≤ 1 := by
      split <;> omega
    have hmac : activeCount (markDeparted s i) =
        activeCount s.players -
          (if (getPlayer s.players i).isActive = true then 1 else 0) := by
      unfold markDeparted
      rw [activeCount_set _ _ _ hilt,
        if_neg (show ¬(({ getPlayer s.players i with isActive := false } :
          Player).isActive = true) from fun hh => Bool.noConfusion hh)]
      omega
    by_cases hblock : activeCount (markDeparted s i) ≤ 1 ∧ 1 < s.players.length
    · obtain ⟨hba, hbl⟩ := hblock
      rcases Nat.eq_zero_or_pos (activeCount (markDeparted s i)) with hac0 | hac1
      · have hfn : (markDeparted s i).findIdx? (fun p => p.isActive) = none :=
          findIdx_active_none _ hac0
        have hrs2 : removeStage s i =
            { s with
                players := markDeparted s i
                isGameOver := true
                winner := s.winner } := by
          unfold removeStage
          rw [if_pos ⟨hba, hbl⟩, hfn]
        have hws : s.winner.isSome = true := by
          by_cases hov : s.isGameOver = true
          · rcases i2 hov with h | h
            · exact h
            · omega
          · have hov' : s.isGameOver = false := by
              cases hb : s.isGameOver
              · rfl
              · exact absurd hb hov
            rcases i3 hov' with h | h
            · omega
            · exfalso
              omega
        rw [hrs2]
        by_cases hic : i = s.currentPlayer
        · rw [if_pos hic]
          have hnt := nextTurn_forcedOver
            { s with
                players := markDeparted s i
                isGameOver := true
                winner := s.winner }
            (by dsimp only; rw [hmlen]; omega) (by dsimp only; exact hac0)
          rw [hnt]
          unfold SessionInv
          dsimp only
          refine ⟨fun _ => rfl, fun _ => Or.inl hws, ?_, ?_, ?_, ?_⟩
          · intro h0; exact Bool.noConfusion h0
          · intro h0; exact Bool.noConfusion h0
          · intro h0; omega
          · intro _; omega
        · rw [if_neg hic]
          unfold SessionInv
          dsimp only
          refine ⟨fun _ => rfl, fun _ => Or.inl hws, ?_, ?_, ?_, ?_⟩
          · intro h0; exact Bool.noConfusion h0
          · intro h0; exact Bool.noConfusion h0
          · intro h0; omega
          · intro _
            have := i6 (by omega)
            omega
      · obtain ⟨j, hfj, hjlt, hjact⟩ := findIdx_active_of_countP _ hac1
        have hrs2 : removeStage s i =
            { s with
                players := markDeparted s i
                isGameOver := true
                winner := some j } := by
          unfold removeStage
          rw [if_pos ⟨hba, hbl⟩, hfj]
        rw [hrs2]
        by_cases hic : i = s.currentPlayer
        · rw [if_pos hic]
          obtain ⟨k, -, hnt, -, hk⟩ := nextTurn_advances
            { s with
                players := markDeparted s i
                isGameOver := true
                winner := some j }
            (by dsimp only; rw [hmlen]; omega)
            ⟨j, hjlt, hjact⟩
          rw [hnt]
          unfold SessionInv
          dsimp only
          refine ⟨fun _ => rfl, fun _ => Or.inl rfl, ?_, ?_, ?_, fun _ => hk⟩
          · intro h0; exact Bool.noConfusion h0
          · intro h0; exact Bool.noConfusion h0
          · intro h0; omega
        · rw [if_neg hic]
          unfold SessionInv
          dsimp only
          refine ⟨fun _ => rfl, fun _ => Or.inl rfl, ?_, ?_, ?_, ?_⟩
          · intro h0; exact Bool.noConfusion h0
          · intro h0; exact Bool.noConfusion h0
          · intro h0; omega
          · intro _
            have := i6 (by omega)
            omega
    · have hrs : removeStage s i = { s with players := markDeparted s i } := by
        unfold removeStage
        rw [if_neg hblock]
      have hB : 2 ≤ activeCount (markDeparted s i) ∨ s.players.length ≤ 1 := by
        by_cases h2 : 2 ≤ activeCount (markDeparted s i)
        · exact Or.inl h2
        · right
          by_cases hl : 1 < s.players.length
          · exact absurd ⟨by omega, hl⟩ hblock
          · omega
      rw [hrs]
      rcases hB with hac2 | hlen1
      · by_cases hic : i = s.currentPlayer
        · rw [if_pos hic]
          obtain ⟨j, hjlt, hjact⟩ :=
            exists_active_of_countP (markDeparted s i) (by omega)
          obtain ⟨k, -, hnt, -, hk⟩ := nextTurn_advances
            { s with players := markDeparted s i }
            (by dsimp only; rw [hmlen]; omega)
            ⟨j, hjlt, hjact⟩
          rw [hnt]
          unfold SessionInv
          dsimp only
          refine ⟨i1, ?_, fun _ => Or.inr hac2, fun _ _ => by omega, ?_, fun _ => hk⟩
          · intro hov
            rcases i2 hov with h | h
            · exact Or.inl h
            · right; omega
          · intro h0; omega
        · rw [if_neg hic]
          unfold SessionInv
          dsimp only
          refine ⟨i1, ?_, fun _ => Or.inr hac2, fun _ _ => by omega, ?_, ?_⟩
          · intro hov
            rcases i2 hov with h | h
            · exact Or.inl h
            · right; omega
          · intro h0; omega
          · intro _
            have := i6 (by omega)
            omega
      · have hlen' : s.players.length = 1 := by omega
        have hcur0 : s.currentPlayer = 0 := by
          have h1 := i6 (by omega)
          omega
        have hic : i = s.currentPlayer := by omega
        have hac0 : activeCount (markDeparted s i) = 0 := by
          rcases Nat.eq_zero_or_pos (activeCount (markDeparted s i)) with h0 | h0
          · exact h0
          · exfalso
            obtain ⟨j, hjlt, hjact⟩ := exists_active_of_countP _ h0
            rw [hmlen] at hjlt
            have hji : j = i := by omega
            rw [hji, hmi] at hjact
            exact Bool.noConfusion hjact
        rw [if_pos hic]
        have hnt := nextTurn_forcedOver { s with players := markDeparted s i }
          (by dsimp only; rw [hmlen]; omega) (by dsimp only; exact hac0)
        rw [hnt]
        unfold SessionInv
        dsimp only
        refine ⟨fun _ => rfl, fun _ => Or.inr (by omega), ?_, ?_, fun _ => hcur0, ?_⟩
        · intro h0; exact Bool.noConfusion h0
        · intro h0; exact Bool.noConfusion h0
        · intro _; omega

lemma SessionInv_step (s s' : GameState) (hstep : Step s s') (hinv : SessionInv s) :
    SessionInv s' := by
  cases hstep with
  | add id name now => exact SessionInv_add s id name now hinv
  | start now => exact SessionInv_start s now hinv
  | roll pid r now => exact SessionInv_roll s pid r now hinv
  | hold pid now => exact SessionInv_hold s pid now hinv
  | remove pid now => exact SessionInv_remove s pid now hinv

lemma SessionInv_reachable (s s' : GameState) (h : Reachable s s')
    (hinv : SessionInv s) : SessionInv s' := by
  induction h with
  | refl => exact hinv
  | tail _ hstep ih => exact SessionInv_step _ _ hstep ih

lemma SessionInv_init (ws : Int) (now : Nat) : SessionInv (NewPigGame ws now) := by
  unfold NewPigGame NewGameState SessionInv
  split <;>
    exact ⟨fun h => by simp at h, fun h => by simp at h, fun _ => by simp [activeCount],
      fun _ h => by simp at h, fun _ => rfl, fun h => by simp at h⟩

/-! ### Success shapes of Roll and Hold, and auxiliary congruences -/

lemma Roll_ok (g : GameState) (r now : Nat) (hlen : 2 ≤ g.players.length)
    (hover : g.isGameOver = false)
    (hact : (getPlayer g.players g.currentPlayer).isActive = true) :
    Roll g (getPlayer g.players g.currentPlayer).id r now =
      (none, rollValue r,
        if rollValue r = 1 then
          nextTurn { g with lastRoll := rollValue r, lastActivityAt := now,
                            turnScore := 0 }
        else
          { g with lastRoll := rollValue r, lastActivityAt := now,
                   turnScore := g.turnScore + rollValue r }) := by
  unfold Roll
  rw [if_neg (by simp [hover]), if_neg (by omega)]
  dsimp only
  rw [if_pos rfl, if_pos hact]
  by_cases h5 : rollValue r = 1
  · rw [if_pos h5, if_pos h5]
  · rw [if_neg h5, if_neg h5]

lemma Hold_ok (g : GameState) (now : Nat) (hlen : 2 ≤ g.players.length)
    (hover : g.isGameOver = false)
    (hact : (getPlayer g.players g.currentPlayer).isActive = true) :
    Hold g (getPlayer g.players g.currentPlayer).id now =
      (none,
        if g.winningScore ≤ (getPlayer g.players g.currentPlayer).score + g.turnScore then
          { g with
              players := g.players.set g.currentPlayer
                { getPlayer g.players g.currentPlayer with
                    score := (getPlayer g.players g.currentPlayer).score + g.turnScore }
              lastActivityAt := now
              isGameOver := true
              winner := some g.currentPlayer
              turnScore := 0 }
        else
          nextTurn
            { g with
                players := g.players.set g.currentPlayer
                  { getPlayer g.players g.currentPlayer with
                      score := (getPlayer g.players g.currentPlayer).score + g.turnScore }
                lastActivityAt := now
                turnScore := 0 }) := by
  unfold Hold
  rw [if_neg (by simp [hover]), if_neg (by omega)]
  dsimp only
  rw [if_pos rfl, if_pos hact]
  by_cases h5 : g.winningScore ≤ (getPlayer g.players g.currentPlayer).score + g.turnScore
  · rw [if_pos h5, if_pos h5]
  · rw [if_neg h5, if_neg h5]

lemma removeStage_players (g : GameState) (i : Nat) :
    (removeStage g i).players = markDeparted g i := by
  unfold removeStage
  split <;> rfl

lemma removeStage_cur (g : GameState) (i : Nat) :
    (removeStage g i).currentPlayer = g.currentPlayer := by
  unfold removeStage
  split <;> rfl

lemma findActiveFuel_congr (ps ps' : List Player)
    (hlen : ps'.length = ps.length)
    (hact : ∀ j, (getPlayer ps' j).isActive = (getPlayer ps j).isActive) :
    ∀ fuel cur, findActiveFuel ps' fuel cur = findActiveFuel ps fuel cur := by
  intro fuel
  induction fuel with
  | zero => intro _; rfl
  | succ fuel ih =>
    intro cur
    rw [findActiveFuel_succ, findActiveFuel_succ, hlen, hact, ih]

lemma specNextActive_set (ps : List Player) (c i : Nat) (x : Player)
    (hi : i < ps.length) (hsame : x.isActive = (getPlayer ps i).isActive) :
    specNextActive (ps.set i x) c = specNextActive ps c := by
  have hact : ∀ j, (getPlayer (ps.set i x) j).isActive =
      (getPlayer ps j).isActive := by
    intro j
    by_cases hj : i = j
    · subst hj
      rw [getPlayer_set_self _ _ _ hi, hsame]
    · rw [getPlayer_set_ne _ _ _ _ hj]
  unfold specNextActive
  rw [List.length_set]
  exact findActiveFuel_congr ps (ps.set i x) (List.length_set _ _ _) hact _ c

lemma filter_map_keyReplace (ps : List (String × PlayerConnection)) (k : String)
    (v : PlayerConnection) :
    (ps.map (fun kv => if kv.1 == k then (k, v) else kv)).filter
        (fun kv => !(kv.1 == k)) =
      ps.filter (fun kv => !(kv.1 == k)) := by
  induction ps with
  | nil => rfl
  | cons a t ih =>
    rw [List.map_cons]
    by_cases ha : (a.1 == k) = true
    · rw [if_pos ha, List.filter_cons, List.filter_cons]
      have h1 : (!((k, v).1 == k)) = false := by simp
      have h2 : (!(a.1 == k)) = false := by rw [ha]; rfl
      rw [h1, h2, if_neg (by decide : ¬(false = true)),
        if_neg (by decide : ¬(false = true))]
      exact ih
    · rw [if_neg ha, List.filter_cons, List.filter_cons]
      have ha2 : (a.1 == k) = false := by
        cases hb : a.1 == k
        · rfl
        · exact absurd hb ha
      have h2 : (!(a.1 == k)) = true := by rw [ha2]; rfl
      rw [h2, ih, if_pos (rfl : (true : Bool) = true)]

lemma mapDel_mapSet (ps : List (String × PlayerConnection)) (k : String)
    (v : PlayerConnection) : mapDel (mapSet ps k v) k = mapDel ps k := by
  unfold mapSet mapDel
  by_cases h : ps.any (fun kv => kv.1 == k) = true
  · rw [if_pos h]
    exact filter_map_keyReplace ps k v
  · rw [if_neg h]
    simp [List.filter_append]

lemma rollValue_bounds (r : Nat) : 1 ≤ rollValue r ∧ rollValue r ≤ 6 := by
  unfold rollValue
  have h6 : r % 6 < 6 := Nat.mod_lt _ (by omega)
  have hge : (0 : Int) ≤ Int.ofNat (r % 6) := Int.ofNat_nonneg _
  have hle : Int.ofNat (r % 6) ≤ 5 := Int.ofNat_le.mpr (Nat.le_of_lt_succ h6)
  omega

/-! ### The claims -/

/-- Claim C6: whenever `AddPlayer`, `Start`, `Roll`, `Hold`, or
`RemovePlayer` returns a typed failure, the session state after the call is
the state before it — no score, active flag, turn index, accumulator, over
flag, winner, or timestamp is modified. -/
theorem C6_failure_leaves_state_unchanged (g : GameState) (now : Nat) :
    (∀ p e, (AddPlayer g p now).1 = some e → (AddPlayer g p now).2 = g) ∧
    (∀ e, (Start g now).1 = some e → (Start g now).2 = g) ∧
    (∀ pid r e, (Roll g pid r now).1 = some e → (Roll g pid r now).2.2 = g) ∧
    (∀ pid e, (Hold g pid now).1 = some e → (Hold g pid now).2 = g) ∧
    (∀ pid e, (RemovePlayer g pid now).1 = some e →
      (RemovePlayer g pid now).2 = g) := by
  refine ⟨?_, ?_, ?_, ?_, ?_⟩
  · intro p e h
    unfold AddPlayer at *
    by_cases h1 : g.isGameOver = true
    · simp [h1]
    · by_cases h2 : 4 ≤ g.players.length
      · simp [h1, h2]
      · by_cases h3 : g.players.any (fun q => q.id == p.id) = true
        · simp [h1, h2, h3]
        · simp [h1, h2, h3] at h
  · intro e h
    unfold Start at *
    by_cases h1 : g.players.length < 2
    · simp [h1]
    · by_cases h2 : g.isGameOver = true
      · simp [h1, h2]
      · simp [h1, h2] at h
  · intro pid r e h
    unfold Roll at *
    by_cases h1 : g.isGameOver = true
    · simp [h1]
    · by_cases h2 : g.players.length < 2
      · simp [h1, h2]
      · by_cases h3 : (getPlayer g.players g.currentPlayer).id = pid
        · by_cases h4 : (getPlayer g.players g.currentPlayer).isActive = true
          · exfalso
            by_cases h5 : rollValue r = 1 <;> simp [h1, h2, h3, h4, h5] at h
          · simp [h1, h2, h3, h4]
        · simp [h1, h2, h3]
  · intro pid e h
    unfold Hold at *
    by_cases h1 : g.isGameOver = true
    · simp [h1]
    · by_cases h2 : g.players.length < 2
      · simp [h1, h2]
      · by_cases h3 : (getPlayer g.players g.currentPlayer).id = pid
        · by_cases h4 : (getPlayer g.players g.currentPlayer).isActive = true
          · exfalso
            by_cases h5 : g.winningScore ≤
                (getPlayer g.players g.currentPlayer).score + g.turnScore <;>
              simp [h1, h2, h3, h4, h5] at h
          · simp [h1, h2, h3, h4]
        · simp [h1, h2, h3]
  · intro pid e h
    rcases hidx : List.findIdx? (fun p => p.id == pid) g.players with _ | i
    · rw [RemovePlayer_eq_none g pid now hidx]
    · rw [RemovePlayer_eq_some g pid now i hidx] at h
      exact absurd h (by simp)

/-- Claim C6 witness: adding a player to an over session fails and returns
the session unchanged. -/
theorem C6_witness :
    (AddPlayer gameSoloOver playerB 7).1 = some GameErr.gameOver ∧
    (AddPlayer gameSoloOver playerB 7).2 = gameSoloOver :=
  ⟨by decide,
    (C6_failure_leaves_state_unchanged gameSoloOver 7).1 playerB GameErr.gameOver
      (by decide)⟩

/-- Claim C7 counterexample: a reachable session with two participants on
which `Start` nevertheless fails (the session is over because one of the two
participants departed), refuting "whenever at least two participants are
present it succeeds as a no-op". -/
theorem C7_counterexample :
    Reachable game0 gameOver2 ∧ 2 ≤ gameOver2.players.length ∧
    (Start gameOver2 5).1 = some GameErr.gameOver := by
  refine ⟨?_, by decide, by decide⟩
  exact Relation.ReflTransGen.tail
    (Relation.ReflTransGen.tail
      (Relation.ReflTransGen.single (Step.add game0 "a" "Alice" 0))
      (Step.add game1A "b" "Bob" 0))
    (Step.remove game2AB "a" 1)

/-- Claim C7 (amended): `Start` succeeds exactly on a not-over session with
at least two participants; with fewer than two it fails with the
not-enough-players error, with two or more but over it fails with the
game-over error; on success only the last-activity timestamp changes, and
repeated calls keep succeeding. -/
theorem C7_amended (g : GameState) (now now2 : Nat) :
    ((Start g now).1 = none ↔ 2 ≤ g.players.length ∧ g.isGameOver = false) ∧
    (g.players.length < 2 →
      (Start g now).1 = some GameErr.notEnoughPlayers) ∧
    (2 ≤ g.players.length → g.isGameOver = true →
      (Start g now).1 = some GameErr.gameOver) ∧
    (2 ≤ g.players.length → g.isGameOver = false →
      (Start g now).2 = { g with lastActivityAt := now } ∧
      (Start (Start g now).2 now2).1 = none) := by
  unfold Start
  by_cases h1 : g.players.length < 2
  · rw [if_pos h1]
    refine ⟨by simp; omega, fun _ => rfl, fun h2 _ => by omega, fun h2 _ => by omega⟩
  · rw [if_neg h1]
    by_cases h2 : g.isGameOver = true
    · rw [if_pos h2]
      refine ⟨by simp [h2], fun hl => by omega, fun _ _ => rfl, ?_⟩
      intro _ hov
      rw [h2] at hov
      exact absurd hov (by decide)
    · rw [if_neg h2]
      have h2' : g.isGameOver = false := by
        cases hb : g.isGameOver
        · rfl
        · exact absurd hb h2
      refine ⟨by simp [h2']; omega, fun hl => by omega, fun _ hov => by
        rw [h2'] at hov; exact absurd hov (by decide), ?_⟩
      intro _ _
      refine ⟨rfl, ?_⟩
      rw [if_neg (by simpa using h1), if_neg (by simpa using h2)]

/-- Claim C7 witness: on the two-player session, `Start` succeeds changing
only the last-activity timestamp, and a repeated call succeeds again. -/
theorem C7_witness :
    (Start game2AB 3).2 = { game2AB with lastActivityAt := 3 } ∧
    (Start (Start game2AB 3).2 4).1 = none :=
  (C7_amended game2AB 3 4).2.2.2 (by decide) (by decide)

/-- Claim C1: on a session with at least two participants, not over, whose
current-turn participant is active, `Roll` succeeds and returns the drawn
value `v` with `1 ≤ v ≤ 6`; if `v` is the forfeit face 1 the turn
accumulator becomes zero and the turn advances to the next active
participant of the cyclic scan; otherwise the accumulator grows by exactly
`v` and the current-turn index is unchanged. -/
theorem C1_roll_spec (g : GameState) (r now : Nat)
    (hlen : 2 ≤ g.players.length) (hover : g.isGameOver = false)
    (hact : (getPlayer g.players g.currentPlayer).isActive = true) :
    (Roll g (getPlayer g.players g.currentPlayer).id r now).1 = none ∧
    (Roll g (getPlayer g.players g.currentPlayer).id r now).2.1 = rollValue r ∧
    1 ≤ rollValue r ∧ rollValue r ≤ 6 ∧
    (rollValue r = 1 →
      (Roll g (getPlayer g.players g.currentPlayer).id r now).2.2.turnScore = 0 ∧
      specNextActive g.players g.currentPlayer =
        some (Roll g (getPlayer g.players g.currentPlayer).id r now).2.2.currentPlayer ∧
      (getPlayer g.players
          (Roll g (getPlayer g.players g.currentPlayer).id r now).2.2.currentPlayer
        ).isActive = true) ∧
    (rollValue r ≠ 1 →
      (Roll g (getPlayer g.players g.currentPlayer).id r now).2.2.turnScore =
        g.turnScore + rollValue r ∧
      (Roll g (getPlayer g.players g.currentPlayer).id r now).2.2.currentPlayer =
        g.currentPlayer) := by
  have hcur : g.currentPlayer < g.players.length := lt_of_active _ _ hact
  rw [Roll_ok g r now hlen hover hact]
  refine ⟨rfl, rfl, (rollValue_bounds r).1, (rollValue_bounds r).2, ?_, ?_⟩
  · intro h5
    rw [if_pos h5]
    obtain ⟨k, hspec, hnt, hkact, hk⟩ := nextTurn_advances
      { g with lastRoll := rollValue r, lastActivityAt := now, turnScore := 0 }
      hcur ⟨g.currentPlayer, hcur, hact⟩
    rw [hnt]
    exact ⟨rfl, hspec, hkact⟩
  · intro h5
    rw [if_neg h5]
    exact ⟨rfl, rfl⟩

/-- Claim C1 witness: on the fresh two-player session, a non-forfeit roll
(draw 3, value 4) accumulates without advancing the turn. -/
theorem C1_witness :
    (Roll game2AB (getPlayer game2AB.players game2AB.currentPlayer).id 3 7).1 =
      none ∧
    (Roll game2AB (getPlayer game2AB.players game2AB.currentPlayer).id 3 7
      ).2.2.turnScore = game2AB.turnScore + rollValue 3 ∧
    (Roll game2AB (getPlayer game2AB.players game2AB.currentPlayer).id 3 7
      ).2.2.currentPlayer = game2AB.currentPlayer :=
  ⟨(C1_roll_spec game2AB 3 7 (by decide) (by decide) (by decide)).1,
    (C1_roll_spec game2AB 3 7 (by decide) (by decide) (by decide)).2.2.2.2.2
      (by decide)⟩

/-- Claim C2: on a started (two or more participants), not-over session
whose current-turn participant is active, `Hold` adds exactly the turn
accumulator to that participant's total and zeroes the accumulator; if the
new total reaches the target the session becomes over with this participant
as winner and an unchanged turn index, and every subsequent `Roll` or `Hold`
in any reachable later state fails with the game-over error; otherwise the
turn advances to the next active participant of the cyclic scan. -/
theorem C2_hold_spec (g : GameState) (now : Nat)
    (hlen : 2 ≤ g.players.length) (hover : g.isGameOver = false)
    (hact : (getPlayer g.players g.currentPlayer).isActive = true) :
    (Hold g (getPlayer g.players g.currentPlayer).id now).1 = none ∧
    (getPlayer (Hold g (getPlayer g.players g.currentPlayer).id now).2.players
        g.currentPlayer).score =
      (getPlayer g.players g.currentPlayer).score + g.turnScore ∧
    (Hold g (getPlayer g.players g.currentPlayer).id now).2.turnScore = 0 ∧
    (g.winningScore ≤ (getPlayer g.players g.currentPlayer).score + g.turnScore →
      (Hold g (getPlayer g.players g.currentPlayer).id now).2.isGameOver = true ∧
      (Hold g (getPlayer g.players g.currentPlayer).id now).2.winner =
        some g.currentPlayer ∧
      (Hold g (getPlayer g.players g.currentPlayer).id now).2.currentPlayer =
        g.currentPlayer ∧
      (∀ s', Reachable (Hold g (getPlayer g.players g.currentPlayer).id now).2 s' →
        (∀ pid r now2, (Roll s' pid r now2).1 = some GameErr.gameOver) ∧
        (∀ pid now2, (Hold s' pid now2).1 = some GameErr.gameOver))) ∧
    ((getPlayer g.players g.currentPlayer).score + g.turnScore < g.winningScore →
      specNextActive g.players g.currentPlayer =
        some (Hold g (getPlayer g.players g.currentPlayer).id now).2.currentPlayer ∧
      (getPlayer (Hold g (getPlayer g.players g.currentPlayer).id now).2.players
          (Hold g (getPlayer g.players g.currentPlayer).id now).2.currentPlayer
        ).isActive = true) := by
  have hcur : g.currentPlayer < g.players.length := lt_of_active _ _ hact
  rw [Hold_ok g now hlen hover hact]
  by_cases h5 : g.winningScore ≤ (getPlayer g.players g.currentPlayer).score + g.turnScore
  · rw [if_pos h5]
    refine ⟨rfl, ?_, rfl, ?_, ?_⟩
    · rw [getPlayer_set_self _ _ _ hcur]
    · intro _
      refine ⟨rfl, rfl, rfl, ?_⟩
      intro s' hreach
      have hov' : s'.isGameOver = true := Reachable_over_mono _ _ hreach rfl
      exact ⟨fun pid r now2 => Roll_gameOver _ _ _ _ hov',
        fun pid now2 => Hold_gameOver _ _ _ hov'⟩
    · intro hlt
      omega
  · rw [if_neg h5]
    have hact1 : (getPlayer (g.players.set g.currentPlayer
        { getPlayer g.players g.currentPlayer with
            score := (getPlayer g.players g.currentPlayer).score + g.turnScore })
        g.currentPlayer).isActive = true := by
      rw [getPlayer_set_self _ _ _ hcur]
      exact hact
    obtain ⟨k, hspec, hnt, hkact, hk⟩ := nextTurn_advances
      { g with
          players := g.players.set g.currentPlayer
            { getPlayer g.players g.currentPlayer with
                score := (getPlayer g.players g.currentPlayer).score + g.turnScore }
          lastActivityAt := now
          turnScore := 0 }
      (by dsimp only; rw [List.length_set]; exact hcur)
      ⟨g.currentPlayer, by dsimp only; rw [List.length_set]; exact hcur, hact1⟩
    rw [hnt]
    refine ⟨rfl, ?_, rfl, ?_, ?_⟩
    · rw [getPlayer_set_self _ _ _ hcur]
    · intro hwin
      omega
    · intro _
      refine ⟨?_, hkact⟩
      exact (specNextActive_set g.players g.currentPlayer g.currentPlayer
        { getPlayer g.players g.currentPlayer with
            score := (getPlayer g.players g.currentPlayer).score + g.turnScore }
        hcur rfl).symm.trans hspec

/-- Claim C2 witness: a hold by the current-turn player of the fresh
two-player session succeeds and leaves the accumulator at zero. -/
theorem C2_witness :
    (Hold game2AB (getPlayer game2AB.players game2AB.currentPlayer).id 9).1 =
      none ∧
    (Hold game2AB (getPlayer game2AB.players game2AB.currentPlayer).id 9
      ).2.turnScore = 0 :=
  ⟨(C2_hold_spec game2AB 9 (by decide) (by decide) (by decide)).1,
    (C2_hold_spec game2AB 9 (by decide) (by decide) (by decide)).2.2.1⟩

/-- Claim C3: `RemovePlayer` fails with the invalid-player error and changes
nothing when no participant has the id; otherwise it succeeds, marks the
(first) participant with that id departed, advances the turn exactly when
the departing participant held it, and — when at most one active participant
remains among at least two that ever joined — ends the session, with the
sole remaining active participant (if any) as winner and the winner
unchanged when none remains. -/
theorem C3_markDeparted_spec (g : GameState) (pid : String) (now : Nat) :
    ((∀ p ∈ g.players, p.id ≠ pid) →
      RemovePlayer g pid now = (some GameErr.invalidPlayer, g)) ∧
    (∀ i, List.findIdx? (fun p => p.id == pid) g.players = some i →
      (RemovePlayer g pid now).1 = none ∧
      (RemovePlayer g pid now).2.players = markDeparted g i ∧
      (getPlayer (RemovePlayer g pid now).2.players i).isActive = false ∧
      (i ≠ g.currentPlayer →
        (RemovePlayer g pid now).2.currentPlayer = g.currentPlayer) ∧
      (i = g.currentPlayer → 1 ≤ activeCount (markDeparted g i) →
        specNextActive (markDeparted g i) g.currentPlayer =
          some (RemovePlayer g pid now).2.currentPlayer) ∧
      (activeCount (markDeparted g i) ≤ 1 → 2 ≤ g.players.length →
        (RemovePlayer g pid now).2.isGameOver = true ∧
        (activeCount (markDeparted g i) = 1 →
          ∃ j, (RemovePlayer g pid now).2.winner = some j ∧
            (getPlayer (markDeparted g i) j).isActive = true) ∧
        (activeCount (markDeparted g i) = 0 →
          (RemovePlayer g pid now).2.winner = g.winner))) := by
  refine ⟨?_, ?_⟩
  · intro hall
    have hnone : List.findIdx? (fun p => p.id == pid) g.players = none := by
      refine List.findIdx?_eq_none_iff.mpr (fun x hx => ?_)
      simpa using hall x hx
    exact RemovePlayer_eq_none g pid now hnone
  · intro i hidx
    rw [RemovePlayer_eq_some g pid now i hidx]
    obtain ⟨hilt, -, -⟩ := List.findIdx?_eq_some_iff_getElem.mp hidx
    have hmlen : (markDeparted g i).length = g.players.length :=
      List.length_set _ _ _
    have hmi : getPlayer (markDeparted g i) i =
        { getPlayer g.players i with isActive := false } :=
      getPlayer_set_self _ _ _ hilt
    have hply : (if i = g.currentPlayer then nextTurn (removeStage g i)
        else removeStage g i).players = markDeparted g i := by
      split
      · rw [(nextTurn_fields _).1, removeStage_players]
      · rw [removeStage_players]
    refine ⟨rfl, hply, ?_, ?_, ?_, ?_⟩
    · dsimp only
      rw [hply, hmi]
    · intro hic
      dsimp only
      rw [if_neg hic, removeStage_cur]
    · intro hic hac
      dsimp only
      rw [if_pos hic]
      obtain ⟨j2, hj2, hj2act⟩ := exists_active_of_countP (markDeparted g i) hac
      obtain ⟨k, hspec, hnt, hkact, hk⟩ := nextTurn_advances (removeStage g i)
        (by rw [removeStage_cur, removeStage_players, hmlen]; omega)
        ⟨j2, by rw [removeStage_players]; exact hj2,
          by rw [removeStage_players]; exact hj2act⟩
      rw [hnt]
      rw [removeStage_players, removeStage_cur] at hspec
      exact hspec
    · intro hble hlen2
      have hblock : activeCount (markDeparted g i) ≤ 1 ∧ 1 < g.players.length :=
        ⟨hble, by omega⟩
      have hover2 : (removeStage g i).isGameOver = true := by
        unfold removeStage
        rw [if_pos hblock]
      have hoverY : (if i = g.currentPlayer then nextTurn (removeStage g i)
          else removeStage g i).isGameOver = true := by
        split
        · exact nextTurn_over_mono _ hover2
        · exact hover2
      refine ⟨hoverY, ?_, ?_⟩
      · intro hac1
        obtain ⟨j, hfj, hjlt, hjact⟩ :=
          findIdx_active_of_countP (markDeparted g i) (by omega)
        have hwin2 : (removeStage g i).winner = some j := by
          unfold removeStage
          rw [if_pos hblock, hfj]
        have hwinY : (if i = g.currentPlayer then nextTurn (removeStage g i)
            else removeStage g i).winner = some j := by
          split
          · rw [(nextTurn_fields _).2.1, hwin2]
          · exact hwin2
        exact ⟨j, hwinY, hjact⟩
      · intro hac0
        have hfn := findIdx_active_none (markDeparted g i) hac0
        have hwin2 : (removeStage g i).winner = g.winner := by
          unfold removeStage
          rw [if_pos hblock, hfn]
        have hwinY : (if i = g.currentPlayer then nextTurn (removeStage g i)
            else removeStage g i).winner = g.winner := by
          split
          · rw [(nextTurn_fields _).2.1, hwin2]
          · exact hwin2
        exact hwinY

/-- Claim C3 witness: removing the first player of the fresh two-player
session succeeds and, since exactly one active participant remains of the
two that joined, ends the session. -/
theorem C3_witness :
    (RemovePlayer game2AB "a" 1).1 = none ∧
    (RemovePlayer game2AB "a" 1).2.isGameOver = true :=
  ⟨((C3_markDeparted_spec game2AB "a" 1).2 0 (by decide)).1,
    (((C3_markDeparted_spec game2AB "a" 1).2 0 (by decide)).2.2.2.2.2
      (by decide) (by decide)).1⟩

/-- Claim C5 counterexample: the session in which a single participant
joined and then departed is reachable from a fresh session, is over, and
has no winner — refuting "the winner reference is non-null iff the over
flag is true" for reachable states. -/
theorem C5_counterexample :
    Reachable game0 gameSoloOver ∧ gameSoloOver.isGameOver = true ∧
    gameSoloOver.winner = none := by
  refine ⟨?_, by decide, by decide⟩
  exact Relation.ReflTransGen.tail
    (Relation.ReflTransGen.single (Step.add game0 "a" "Alice" 0))
    (Step.remove game1A "a" 1)

/-- Claim C5 (amended): in every state reachable from a fresh session, a
non-null winner implies the over flag, and an over session has a non-null
winner unless at most one participant ever joined (the degenerate
sole-participant departure leaves the session over with no winner). -/
theorem C5_amended (ws : Int) (now : Nat) (s : GameState)
    (h : Reachable (NewPigGame ws now) s) :
    (s.winner.isSome = true → s.isGameOver = true) ∧
    (s.isGameOver = true → s.winner.isSome = true ∨ s.players.length ≤ 1) := by
  have hinv := SessionInv_reachable _ _ h (SessionInv_init ws now)
  exact ⟨hinv.1, hinv.2.1⟩

/-- Claim C5 witness: the invariant instantiated at the fresh session
itself. -/
theorem C5_witness :
    ((NewPigGame 100 0).winner.isSome = true →
      (NewPigGame 100 0).isGameOver = true) ∧
    ((NewPigGame 100 0).isGameOver = true →
      (NewPigGame 100 0).winner.isSome = true ∨
        (NewPigGame 100 0).players.length ≤ 1) :=
  C5_amended 100 0 (NewPigGame 100 0) Relation.ReflTransGen.refl

/-- Claim C10: `RemovePlayer` does not check the over flag — on an over
session with recorded winner `w`, removing `w` still succeeds, the session
stays over, and if exactly one other active participant remains (with at
least two ever joined) the winner reference is reassigned to that remaining
active participant, replacing `w`. -/
theorem C10_remove_winner (g : GameState) (now : Nat) (w : Nat)
    (hover : g.isGameOver = true) (hwin : g.winner = some w)
    (hfirst : List.findIdx? (fun p => p.id == (getPlayer g.players w).id)
      g.players = some w) :
    (RemovePlayer g (getPlayer g.players w).id now).1 = none ∧
    (RemovePlayer g (getPlayer g.players w).id now).2.isGameOver = true ∧
    (activeCount (markDeparted g w) = 1 → 2 ≤ g.players.length →
      ∃ j, (RemovePlayer g (getPlayer g.players w).id now).2.winner = some j ∧
        (getPlayer (markDeparted g w) j).isActive = true ∧
        (RemovePlayer g (getPlayer g.players w).id now).2.winner ≠ g.winner) := by
  obtain ⟨hwlt, -, -⟩ := List.findIdx?_eq_some_iff_getElem.mp hfirst
  rw [RemovePlayer_eq_some g (getPlayer g.players w).id now w hfirst]
  have hmi : getPlayer (markDeparted g w) w =
      { getPlayer g.players w with isActive := false } :=
    getPlayer_set_self _ _ _ hwlt
  refine ⟨rfl, ?_, ?_⟩
  · have hover2 : (removeStage g w).isGameOver = true :=
      removeStage_over_mono _ _ hover
    dsimp only
    split
    · exact nextTurn_over_mono _ hover2
    · exact hover2
  · intro hac1 hlen2
    have hblock : activeCount (markDeparted g w) ≤ 1 ∧ 1 < g.players.length :=
      ⟨by omega, by omega⟩
    obtain ⟨j, hfj, hjlt, hjact⟩ :=
      findIdx_active_of_countP (markDeparted g w) (by omega)
    have hwin2 : (removeStage g w).winner = some j := by
      unfold removeStage
      rw [if_pos hblock, hfj]
    have hwinY : (if w = g.currentPlayer then nextTurn (removeStage g w)
        else removeStage g w).winner = some j := by
      split
      · rw [(nextTurn_fields _).2.1, hwin2]
      · exact hwin2
    have hjw : j ≠ w := by
      intro hjw
      rw [hjw, hmi] at hjact
      exact Bool.noConfusion hjact
    refine ⟨j, hwinY, hjact, ?_⟩
    dsimp only
    rw [hwinY, hwin]
    intro hcontr
    exact hjw (by simpa using hcontr)

/-- Claim C10 witness: on a concrete over session with winner Alice and both
participants still active, removing Alice succeeds and hands the winner
reference to Bob. -/
theorem C10_witness :
    (RemovePlayer c10g (getPlayer c10g.players 0).id 2).1 = none ∧
    (RemovePlayer c10g (getPlayer c10g.players 0).id 2).2.isGameOver = true ∧
    (∃ j, (RemovePlayer c10g (getPlayer c10g.players 0).id 2).2.winner = some j ∧
      (getPlayer (markDeparted c10g 0) j).isActive = true ∧
      (RemovePlayer c10g (getPlayer c10g.players 0).id 2).2.winner ≠
        c10g.winner) :=
  ⟨(C10_remove_winner c10g 2 0 (by decide) (by decide) (by decide)).1,
    (C10_remove_winner c10g 2 0 (by decide) (by decide) (by decide)).2.1,
    (C10_remove_winner c10g 2 0 (by decide) (by decide) (by decide)).2.2
      (by decide) (by decide)⟩

/-- Claim C8: `FindOrCreateMatch` returns the existing waiting room when it
exists, has not started, and has spare connection capacity — leaving the
directory unchanged, so a repeated call returns the same id; otherwise it
creates a fresh match that becomes the new waiting room, and a repeated call
with no intervening join returns that same fresh id. -/
theorem C8_findOrCreate (mm : MatchManager) (ws ws2 : Int) (fid fid2 : String)
    (now now2 : Nat) :
    (∀ wr, mm.waitingRoom = some wr → wr.isStarted = false →
      wr.players.length < wr.maxPlayers →
      FindOrCreateMatch mm ws fid now = (wr, mm) ∧
      (FindOrCreateMatch mm ws2 fid2 now2).1.id = wr.id) ∧
    ((mm.waitingRoom = none ∨
        ∃ wr, mm.waitingRoom = some wr ∧
          (wr.isStarted = true ∨ wr.maxPlayers ≤ wr.players.length)) →
      (FindOrCreateMatch mm ws fid now).1.id = fid ∧
      (FindOrCreateMatch mm ws fid now).2.waitingRoom =
        some (FindOrCreateMatch mm ws fid now).1 ∧
      (FindOrCreateMatch (FindOrCreateMatch mm ws fid now).2 ws2 fid2 now2).1.id =
        fid) := by
  constructor
  · intro wr hwr hst hcap
    unfold FindOrCreateMatch
    rw [hwr]
    dsimp only
    rw [if_pos ⟨hst, hcap⟩, if_pos ⟨hst, hcap⟩]
    exact ⟨rfl, rfl⟩
  · intro hcase
    unfold FindOrCreateMatch
    rcases hcase with hnone | ⟨wr, hwr, hbad⟩
    · rw [hnone]
      dsimp only
      refine ⟨by rfl, by rfl, ?_⟩
      rw [if_pos ⟨rfl, by show (0 : Nat) < 4; decide⟩]
      rfl
    · rw [hwr]
      dsimp only
      have hcond : ¬(wr.isStarted = false ∧ wr.players.length < wr.maxPlayers) := by
        rcases hbad with hs | hc
        · intro hh
          rw [hs] at hh
          exact Bool.noConfusion hh.1
        · intro hh
          omega
      rw [if_neg hcond]
      dsimp only
      refine ⟨by rfl, by rfl, ?_⟩
      rw [if_pos ⟨rfl, by show (0 : Nat) < 4; decide⟩]
      rfl

/-- Claim C8 witness: on an empty directory a first call creates the match
with the fresh id and designates it the waiting room, and a second call with
no intervening join returns the same id. -/
theorem C8_witness :
    (FindOrCreateMatch c8mm 100 "g1" 0).1.id = "g1" ∧
    (FindOrCreateMatch c8mm 100 "g1" 0).2.waitingRoom =
      some (FindOrCreateMatch c8mm 100 "g1" 0).1 ∧
    (FindOrCreateMatch (FindOrCreateMatch c8mm 100 "g1" 0).2 100 "g2" 1).1.id =
      "g1" :=
  (C8_findOrCreate c8mm 100 100 "g1" "g2" 0 1).2 (Or.inl rfl)

/-- Claim C9 counterexample: when a join arrives whose player id is already
present (here the registered connection for "a" and a second connection with
the same id), the actor sends no message at all to the joining connection —
refuting "it sends a RuleViolation error message privately" — and the
previously registered connection under that id is also deregistered,
refuting "the other connections are unchanged". -/
theorem C9_counterexample :
    (AddPlayer c9match.game (joinPlayer c9conn1) 3).1 =
      some GameErr.playerAlreadyInGame ∧
    (handleRegister c9match c9conn1 3).2 = [] ∧
    (handleRegister c9match c9conn1 3).1.players = [] := by
  decide

/-- Claim C9 (amended): when `AddPlayer` rejects the join (duplicate id or
capacity), `handleRegister` sends no message to anyone; the joining
connection is not registered — and a previously registered connection with
the same player id is removed from the connection map — while the game's
participant list is untouched (the error is only logged server-side). -/
theorem C9_amended (m : SMatch) (conn : PlayerConnection) (now : Nat)
    (e : GameErr) (h : (AddPlayer m.game (joinPlayer conn) now).1 = some e) :
    handleRegister m conn now =
      ({ m with players := mapDel m.players conn.playerID
                lastActivityAt := now }, []) := by
  unfold handleRegister
  dsimp only
  rcases hA : AddPlayer m.game (joinPlayer conn) now with ⟨err, g2⟩
  rw [hA] at h
  cases err with
  | none => exact Option.noConfusion h
  | some e2 =>
    dsimp only
    rw [mapDel_mapSet]

/-- Claim C9 witness: the amended behaviour at the concrete duplicate-id
join. -/
theorem C9_witness :
    handleRegister c9match c9conn1 4 =
      ({ c9match with players := mapDel c9match.players "a"
                      lastActivityAt := 4 }, []) :=
  C9_amended c9match c9conn1 4 GameErr.playerAlreadyInGame (by decide)
